import Mathlib

/-!
Shallow embedding of `src/addon.js` (IPTV Stremio addon).

Conventions used throughout, reflecting JavaScript semantics:
- An optional (possibly `null`/`undefined`) string field becomes `Option String`;
  JS truthiness of such a field (`if (x)`, `x && …`, `x || d`, `x ?? …` do differ!)
  is `some s` with `s ≠ ""` — captured by `optTruthy` / `jsOr`.
- `tags?.includes(t)` / `categories?.some(..)` on an optional array: `none` is falsy.
- Times are `Int` milliseconds (`Date.now()`), so `now - lastFetch < TTL` is Int
  comparison exactly as in JS.
- The `COUNTRIES` table comes from `./countries.js` (data only, not part of the
  program logic); it is passed as a lookup parameter `String → Option String`.
- Network effects are purified: the logos list / fetched trio are passed as
  arguments; the cache is explicit state threaded through `getData`.
-/

/-- JS truthiness of an optional string: `null`/`undefined` and `""` are falsy. -/
def optTruthy : Option String → Option String
  | some s => if s = "" then none else some s
  | none => none

/-- JS `x || d` for an optional string `x`: the default replaces absent or empty. -/
def jsOr (x : Option String) (d : String) : String :=
  match x with
  | some s => if s = "" then d else s
  | none => d

/-- JS `str.startsWith(pre)`. -/
def jsStartsWith (s pre : String) : Bool :=
  pre.data.isPrefixOf s.data

/-- JS `str.endsWith(suf)`. -/
def jsEndsWith (s suf : String) : Bool :=
  suf.data.isSuffixOf s.data

/-- JS `str.toUpperCase()` (ASCII, as used for country codes). -/
def jsToUpper (s : String) : String :=
  ⟨s.data.map Char.toUpper⟩

/-- JS `str.toLowerCase()` (ASCII, as used for names/search/format). -/
def jsToLower (s : String) : String :=
  ⟨s.data.map Char.toLower⟩

/-- Substring containment on character lists (`hay.includes(needle)` semantics). -/
def listContainsSub (needle : List Char) : List Char → Bool
  | [] => needle.isEmpty
  | c :: t => needle.isPrefixOf (c :: t) || listContainsSub needle t

/-- JS `hay.includes(needle)` for strings. -/
def jsIncludes (hay needle : String) : Bool :=
  listContainsSub needle.data hay.data

/-- JS `str.replace(pat, '')` with a string pattern: removes the FIRST occurrence
of `pat` only (or leaves the string unchanged when `pat` does not occur). -/
def replaceFirstL (pat : List Char) : List Char → List Char
  | [] => []
  | c :: rest =>
    if pat.isPrefixOf (c :: rest) then List.drop pat.length (c :: rest)
    else c :: replaceFirstL pat rest

/-- `req.params.id.replace('iptv-', '')` — used identically by the meta handler
(line 320) and the stream handler (line 334). -/
def stripId (s : String) : String :=
  ⟨replaceFirstL "iptv-".data s.data⟩

/-- A channel record from the upstream channels endpoint (fields used by the code). -/
structure Channel where
  id : String
  name : String
  country : String
  categories : Option (List String)
  logo : Option String
  deriving DecidableEq

/-- A stream record: `channel` is a foreign key to `Channel.id`. -/
structure StreamRec where
  channel : String
  url : String
  deriving DecidableEq

/-- A raw guide record from the guides endpoint. -/
structure Guide where
  channel : String
  now : Option String
  next : Option String
  image : Option String
  deriving DecidableEq

/-- A logo record from the logos endpoint. -/
structure Logo where
  channel : String
  url : String
  width : Int
  format : Option String
  tags : Option (List String)
  deriving DecidableEq

/-- Result of `extractGuideDetails`. -/
structure GuideDetails where
  nowPlaying : String
  next : String
  currentShowImage : Option String
  deriving DecidableEq

/-- A Stremio metadata object as built by `toMeta`. -/
structure Meta where
  id : String
  type : String
  name : String
  poster : String
  posterShape : String
  background : String
  logo : String
  description : String
  deriving DecidableEq

/-- An element of the stream handler's `streams` array. -/
structure StreamResult where
  url : String
  title : String
  deriving DecidableEq

/-- `extractGuideDetails(guide)` (addon.js lines 93-100).  The source uses `||`
(truthy-or), so `""` is replaced by the default exactly like `null`. -/
def extractGuideDetails : Option Guide → Option GuideDetails
  | none => none
  | some g =>
    some { nowPlaying := jsOr g.now "Unknown"
           next := jsOr g.next "Unknown"
           currentShowImage := optTruthy g.image }

/-- The logo filter of `getPoster` (lines 77-81): same channel, tagged
`horizontal`, and format (when present) not `svg` case-insensitively. -/
def logoCandidate (chId : String) (l : Logo) : Bool :=
  l.channel == chId &&
  (match l.tags with
   | some ts => ts.contains "horizontal"
   | none => false) &&
  (match l.format with
   | some f => jsToLower f != "svg"
   | none => true)

/-- The filtered candidate list of `getPoster`. -/
def candidates (ch : Channel) (logos : List Logo) : List Logo :=
  logos.filter (logoCandidate ch.id)

/-- Head of the stable descending sort by `width`
(`candidates.sort((a, b) => b.width - a.width); candidates[0]`): the first
element in input order attaining the maximal width. -/
def pickWidest (best : Logo) : List Logo → Logo
  | [] => best
  | l :: rest => if best.width < l.width then pickWidest l rest else pickWidest best rest

/-- The last two branches of `getPoster` (lines 89-90): templated URL from the
channel id when the id is truthy, else the fixed placeholder. -/
def idFallback (ch : Channel) : String :=
  if ch.id != "" then "https://iptv-org.github.io/logo/" ++ ch.id ++ ".png"
  else "https://dl.strem.io/addon-background-landscape.jpg"

/-- The channel's own logo when truthy and not an `.svg` path (line 88). -/
def channelLogoOk (ch : Channel) : Option String :=
  match ch.logo with
  | some l => if l != "" && !jsEndsWith l ".svg" then some l else none
  | none => none

/-- `getPoster(channel, guideDetails)` (lines 72-91), with the logos list (the
`fetchLogos()` result) passed as an argument. -/
def getPoster (ch : Channel) (gd : Option GuideDetails) (logos : List Logo) : String :=
  match optTruthy (gd.bind fun d => d.currentShowImage) with
  | some img => img
  | none =>
    match candidates ch logos with
    | best :: rest => (pickWidest best rest).url
    | [] =>
      match channelLogoOk ch with
      | some l => l
      | none => idFallback ch

/-- The `description` field of `toMeta` (lines 112-116): country display name
(`COUNTRIES[c] || c`), comma-joined categories, optional guide line; empty
parts dropped (`filter(Boolean)`), joined with a bullet. -/
def metaDescription (countries : String → Option String) (ch : Channel)
    (gd : Option GuideDetails) : String :=
  String.intercalate " • "
    (([ jsOr (countries ch.country) ch.country,
        (match ch.categories with
         | some cats => String.intercalate ", " cats
         | none => ""),
        (match gd with
         | some d => "Now: " ++ d.nowPlaying ++ " • Next: " ++ d.next
         | none => "") ]).filter fun s => s != "")

/-- `toMeta(channel, guideDetails)` (lines 102-118). -/
def toMeta (countries : String → Option String) (ch : Channel)
    (gd : Option GuideDetails) (logos : List Logo) : Meta :=
  let poster := getPoster ch gd logos
  { id := "iptv-" ++ ch.id
    type := "tv"
    name := ch.name
    poster := poster
    posterShape := "landscape"
    background := poster
    logo := poster
    description := metaDescription countries ch gd }

/-- The channel-selection stage of the catalog handler (lines 288-307): the
sequential filters applied to the cached channel list, in source order. -/
def catalogChannels (channels : List Channel) (streams : List StreamRec)
    (genresCfg : List String) (catalogId : String)
    (genreParam searchParam : Option String) : List Channel :=
  let r1 := channels.filter fun c => streams.any fun s => s.channel == c.id
  let r2 :=
    if jsStartsWith catalogId "iptv-country-" then
      r1.filter fun c =>
        c.country == jsToUpper ⟨replaceFirstL "iptv-country-".data catalogId.data⟩
    else r1
  let r3 :=
    if genresCfg.isEmpty then r2
    else r2.filter fun c =>
      match c.categories with
      | some cats => cats.any fun g => genresCfg.contains g
      | none => false
  let r4 :=
    match optTruthy genreParam with
    | some g => r3.filter fun c =>
        match c.categories with
        | some cats => cats.contains g
        | none => false
    | none => r3
  match optTruthy searchParam with
  | some q => r4.filter fun c => jsIncludes (jsToLower c.name) (jsToLower q)
  | none => r4

/-- The catalog handler's response body (lines 309-315): each surviving channel
mapped through guide lookup + `extractGuideDetails` + `toMeta`, in order. -/
def catalogMetas (countries : String → Option String) (channels : List Channel)
    (streams : List StreamRec) (guides : List Guide) (logos : List Logo)
    (genresCfg : List String) (catalogId : String)
    (genreParam searchParam : Option String) : List Meta :=
  (catalogChannels channels streams genresCfg catalogId genreParam searchParam).map
    fun c =>
      toMeta countries c
        (extractGuideDetails (guides.find? fun g => g.channel == c.id)) logos

/-- The single-pass keep-predicate stated by the spec (§4.3): conjunction, in
order, of stream existence, country match (when the id encodes a country),
settings genre allow-list (when non-empty), exact genre parameter (when
supplied), and case-insensitive name search (when supplied). -/
def catalogKeep (streams : List StreamRec) (genresCfg : List String)
    (catalogId : String) (genreParam searchParam : Option String)
    (c : Channel) : Bool :=
  (streams.any fun s => s.channel == c.id) &&
  (!jsStartsWith catalogId "iptv-country-" ||
    c.country == jsToUpper ⟨replaceFirstL "iptv-country-".data catalogId.data⟩) &&
  (genresCfg.isEmpty ||
    (match c.categories with
     | some cats => cats.any fun g => genresCfg.contains g
     | none => false)) &&
  (match optTruthy genreParam with
   | some g =>
     (match c.categories with
      | some cats => cats.contains g
      | none => false)
   | none => true) &&
  (match optTruthy searchParam with
   | some q => jsIncludes (jsToLower c.name) (jsToLower q)
   | none => true)

/-- The meta handler (lines 319-329): strip the `iptv-` marker, look up the
channel; `none` models the empty placeholder response `{meta: {}}`. -/
def metaHandler (reqId : String) (channels : List Channel) (guides : List Guide)
    (logos : List Logo) (countries : String → Option String) : Option Meta :=
  let channelId := stripId reqId
  match channels.find? fun c => c.id == channelId with
  | none => none
  | some channel =>
    some (toMeta countries channel
      (extractGuideDetails (guides.find? fun g => g.channel == channelId)) logos)

/-- The stream handler (lines 332-340): first matching stream record, shaped as
`{url, title: 'Live'}`, else the empty list. -/
def streamHandler (reqId : String) (streams : List StreamRec) : List StreamResult :=
  let channelId := stripId reqId
  match streams.find? fun s => s.channel == channelId with
  | some s => [{ url := s.url, title := "Live" }]
  | none => []

/-- The trio cached by `getData`. -/
structure CacheTrio where
  channels : List Channel
  streams : List StreamRec
  guides : List Guide
  deriving DecidableEq

/-- The mutable cache state of addon.js lines 40-41: `cache.channels` is `null`
before the first fetch and set together with `streams`/`guides` afterwards, so
the truthiness test `cache.channels && …` is `Option.isSome` on the trio. -/
structure CacheState where
  cache : Option CacheTrio
  lastFetch : Int
  deriving DecidableEq

/-- `TTL = 60 * 60 * 1000` (line 42). -/
def TTL : Int := 60 * 60 * 1000

/-- `getData()` (lines 48-60), purified: `now` is `Date.now()` and `fetched` is
the trio the three parallel `axios.get` calls would return.  Returns the value
handed to the caller, the new cache state, and whether a fetch happened. -/
def getData (st : CacheState) (now : Int) (fetched : CacheTrio) :
    CacheTrio × CacheState × Bool :=
  match st.cache with
  | some t =>
    if now - st.lastFetch < TTL then (t, st, false)
    else (fetched, { cache := some fetched, lastFetch := now }, true)
  | none => (fetched, { cache := some fetched, lastFetch := now }, true)

/-! ## Helper lemmas -/

lemma isPrefixOf_append_self (l x : List Char) : l.isPrefixOf (l ++ x) = true := by
  simp [List.isPrefixOf_iff_prefix]

lemma replaceFirstL_append (pat x : List Char) (h : pat ≠ []) :
    replaceFirstL pat (pat ++ x) = x := by
  cases pat with
  | nil => exact absurd rfl h
  | cons c cs =>
    have hp : List.isPrefixOf (c :: cs) (c :: cs ++ x) = true := isPrefixOf_append_self _ _
    rw [List.cons_append, replaceFirstL, ← List.cons_append, if_pos hp]
    exact List.drop_left' rfl

lemma stripId_append_eq (s : String) : stripId ("iptv-" ++ s) = s := by
  have hd : ("iptv-" ++ s).data = "iptv-".data ++ s.data := String.data_append _ _
  simp only [stripId, hd, replaceFirstL_append "iptv-".data s.data (by decide)]

lemma pickWidest_mem (b : Logo) (l : List Logo) : pickWidest b l ∈ b :: l := by
  induction l generalizing b with
  | nil => simp [pickWidest]
  | cons x xs ih =>
    simp only [pickWidest]
    split
    · rcases List.mem_cons.mp (ih x) with h | h
      · simp [h]
      · simp [List.mem_cons, Or.inr (Or.inr h)]
    · rcases List.mem_cons.mp (ih b) with h | h
      · simp [h]
      · simp [List.mem_cons, Or.inr (Or.inr h)]

lemma pickWidest_width (b : Logo) (l : List Logo) :
    ∀ x ∈ b :: l, x.width ≤ (pickWidest b l).width := by
  induction l generalizing b with
  | nil =>
    intro x hx
    rcases List.mem_cons.mp hx with h | h
    · simp [h, pickWidest]
    · simp at h
  | cons y ys ih =>
    intro x hx
    simp only [pickWidest]
    rcases List.mem_cons.mp hx with rfl | hx'
    · split
      · exact le_trans (le_of_lt (by assumption)) (ih y y (List.mem_cons_self _ _))
      · exact ih x x (List.mem_cons_self _ _)
    · rcases List.mem_cons.mp hx' with rfl | hx''
      · split
        · exact ih x x (List.mem_cons_self _ _)
        · exact le_trans (le_of_not_lt (by assumption)) (ih b b (List.mem_cons_self _ _))
      · split
        · exact ih y x (List.mem_cons.mpr (Or.inr hx''))
        · exact ih b x (List.mem_cons.mpr (Or.inr hx''))

lemma catalogChannels_eq_filter (channels : List Channel) (streams : List StreamRec)
    (genresCfg : List String) (catalogId : String)
    (genreParam searchParam : Option String) :
    catalogChannels channels streams genresCfg catalogId genreParam searchParam =
      channels.filter (catalogKeep streams genresCfg catalogId genreParam searchParam) := by
  unfold catalogChannels catalogKeep
  cases hc : jsStartsWith catalogId "iptv-country-" <;>
  cases hg : genresCfg.isEmpty <;>
  cases hp : optTruthy genreParam <;>
  cases hs : optTruthy searchParam <;>
  simp [List.filter_filter, Bool.and_assoc, Bool.and_comm, Bool.and_left_comm]

/-! ## Claim theorems -/

/-- C9: every metadata object's `id` is the channel id prefixed with the fixed
marker `iptv-`, and stripping (the single `stripId` operation both the meta
handler and the stream handler apply to `req.params.id`) is a left inverse of
this prefixing: for every channel id `s`, stripping `"iptv-" ++ s` yields `s`. -/
theorem toMeta_id_round_trip :
    (∀ (countries : String → Option String) (ch : Channel) (gd : Option GuideDetails)
      (logos : List Logo), (toMeta countries ch gd logos).id = "iptv-" ++ ch.id) ∧
    (∀ s : String, stripId ("iptv-" ++ s) = s) ∧
    (∀ (countries : String → Option String) (ch : Channel) (gd : Option GuideDetails)
      (logos : List Logo), stripId (toMeta countries ch gd logos).id = ch.id) := by
  refine ⟨fun countries ch gd logos => rfl, stripId_append_eq,
    fun countries ch gd logos => ?_⟩
  have h1 : (toMeta countries ch gd logos).id = "iptv-" ++ ch.id := rfl
  rw [h1, stripId_append_eq]

/-- C6 counterexample: the claim asserts `??` (nullish) semantics, under which a
present empty-string `now` is kept as the empty string; the code uses `||`, so
on the guide `{channel := "c1", now := "", next := "N"}` it yields
`nowPlaying = "Unknown"`, not `nowPlaying = ""`. -/
theorem extractGuideDetails_empty_now_cex :
    extractGuideDetails
        (some { channel := "c1", now := some "", next := some "N", image := none }) ≠
      some { nowPlaying := "", next := "N", currentShowImage := none } ∧
    extractGuideDetails
        (some { channel := "c1", now := some "", next := some "N", image := none }) =
      some { nowPlaying := "Unknown", next := "N", currentShowImage := none } := by
  decide

/-- C6 (amended): `extractGuideDetails` returns `none` exactly on an absent
guide; otherwise it applies JS `||` semantics, substituting the defaults for
absent OR empty-string fields (so `extractGuideDetails {}` still gives
`{nowPlaying := "Unknown", next := "Unknown", currentShowImage := none}`, and a
present empty-string `now`/`next` becomes `"Unknown"`, an empty `image` `none`). -/
theorem extractGuideDetails_spec :
    extractGuideDetails none = none ∧
    (∀ g : Guide, extractGuideDetails (some g) =
      some { nowPlaying := match g.now with
                           | some s => if s = "" then "Unknown" else s
                           | none => "Unknown"
             next := match g.next with
                     | some s => if s = "" then "Unknown" else s
                     | none => "Unknown"
             currentShowImage := match g.image with
                                 | some s => if s = "" then none else some s
                                 | none => none }) ∧
    extractGuideDetails (some { channel := "c", now := none, next := none, image := none }) =
      some { nowPlaying := "Unknown", next := "Unknown", currentShowImage := none } := by
  refine ⟨rfl, fun g => rfl, by decide⟩

/-- C7: the meta handler returns the empty placeholder (modelled `none`) when
no cached channel's id equals the stripped request id, and otherwise the single
metadata object built by `toMeta` from the found channel and its extracted
guide details. -/
theorem metaHandler_spec (reqId : String) (channels : List Channel) (guides : List Guide)
    (logos : List Logo) (countries : String → Option String) :
    ((∀ c ∈ channels, c.id ≠ stripId reqId) →
      metaHandler reqId channels guides logos countries = none) ∧
    (∀ ch, channels.find? (fun c => c.id == stripId reqId) = some ch →
      metaHandler reqId channels guides logos countries =
        some (toMeta countries ch
          (extractGuideDetails (guides.find? fun g => g.channel == stripId reqId)) logos)) := by
  constructor
  · intro h
    have hf : channels.find? (fun c => c.id == stripId reqId) = none :=
      List.find?_eq_none.mpr (fun c hc => by simpa using h c hc)
    simp [metaHandler, hf]
  · intro ch hch
    simp [metaHandler, hch]

/-- C8: the stream handler returns `[{url := u, title := "Live"}]` where `u` is
the url of the first stream record (in input order) whose `channel` equals the
stripped id, and the empty list when no record matches. -/
theorem streamHandler_spec (reqId : String) (streams : List StreamRec) :
    ((∀ s ∈ streams, s.channel ≠ stripId reqId) → streamHandler reqId streams = []) ∧
    (∀ r ∈ streams, r.channel = stripId reqId →
      ∃ s l1 l2, streams = l1 ++ s :: l2 ∧ s.channel = stripId reqId ∧
        (∀ x ∈ l1, x.channel ≠ stripId reqId) ∧
        streamHandler reqId streams = [{ url := s.url, title := "Live" }]) := by
  constructor
  · intro h
    have hf : streams.find? (fun s => s.channel == stripId reqId) = none :=
      List.find?_eq_none.mpr (fun s hs => by simpa using h s hs)
    simp [streamHandler, hf]
  · intro r hr hrch
    have hsome : (streams.find? (fun s => s.channel == stripId reqId)).isSome := by
      rw [List.find?_isSome]
      exact ⟨r, hr, by simpa using hrch⟩
    obtain ⟨s, hs⟩ := Option.isSome_iff_exists.mp hsome
    obtain ⟨hps, as, bs, heq, hall⟩ := List.find?_eq_some.mp hs
    exact ⟨s, as, bs, heq, by simpa using hps,
      fun x hx => by simpa using hall x hx, by simp [streamHandler, hs]⟩

/-- C5: `getData` returns the cached trio unchanged (no fetch) exactly when a
cached value exists and the elapsed time is strictly below `TTL`; otherwise it
overwrites the whole trio and the timestamp in one step and reports one fetch;
and a second call within the TTL window after any call returns the identical
value with no second fetch. -/
theorem getData_cache_spec (st : CacheState) (now : Int) (fetched : CacheTrio) :
    (∀ t, st.cache = some t → now - st.lastFetch < TTL →
      getData st now fetched = (t, st, false)) ∧
    (st.cache = none ∨ TTL ≤ now - st.lastFetch →
      getData st now fetched = (fetched, { cache := some fetched, lastFetch := now }, true)) ∧
    (∀ (now2 : Int) (fetched2 : CacheTrio),
      now2 - (getData st now fetched).2.1.lastFetch < TTL →
      getData (getData st now fetched).2.1 now2 fetched2 =
        ((getData st now fetched).1, (getData st now fetched).2.1, false)) := by
  refine ⟨?_, ?_, ?_⟩
  · intro t ht hlt
    simp [getData, ht, hlt]
  · intro h
    rcases h with h | h
    · simp [getData, h]
    · cases hc : st.cache with
      | none => simp [getData, hc]
      | some t => simp [getData, hc, not_lt.mpr h]
  · intro now2 fetched2 hlt
    cases hc : st.cache with
    | none =>
      simp only [getData, hc] at hlt ⊢
      simp [hlt]
    | some t =>
      by_cases hfresh : now - st.lastFetch < TTL
      · simp only [getData, hc, if_pos hfresh] at hlt ⊢
        simp [hc, hlt]
      · simp only [getData, hc, if_neg hfresh] at hlt ⊢
        simp [hlt]

/-- C2: the catalog handler's result is exactly the upstream channel list
filtered by the single keep-predicate `catalogKeep` (conjunction, in order, of:
stream existence; country match when the id encodes a country; settings genre
allow-list when non-empty; exact genre parameter when supplied; case-insensitive
name search when supplied), mapped through `toMeta` — so surviving channels keep
their relative upstream order (the selection is a sublist, never re-sorted). -/
theorem catalog_handler_spec (countries : String → Option String) (channels : List Channel)
    (streams : List StreamRec) (guides : List Guide) (logos : List Logo)
    (genresCfg : List String) (catalogId : String) (genreParam searchParam : Option String) :
    catalogMetas countries channels streams guides logos genresCfg catalogId
        genreParam searchParam =
      (channels.filter (catalogKeep streams genresCfg catalogId genreParam searchParam)).map
        (fun c => toMeta countries c
          (extractGuideDetails (guides.find? fun g => g.channel == c.id)) logos) ∧
    List.Sublist
      (catalogChannels channels streams genresCfg catalogId genreParam searchParam)
      channels := by
  constructor
  · unfold catalogMetas
    rw [catalogChannels_eq_filter]
  · rw [catalogChannels_eq_filter]
    exact List.filter_sublist _

/-- C3: a channel with no stream record pointing at it never survives the
catalog handler's channel selection, for every catalog id, parameter
combination and settings. -/
theorem no_stream_not_in_catalog (channels : List Channel) (streams : List StreamRec)
    (genresCfg : List String) (catalogId : String) (genreParam searchParam : Option String)
    (c : Channel) (h : ∀ s ∈ streams, s.channel ≠ c.id) :
    c ∉ catalogChannels channels streams genresCfg catalogId genreParam searchParam := by
  rw [catalogChannels_eq_filter]
  intro hmem
  have hk := (List.mem_filter.mp hmem).2
  simp only [catalogKeep, Bool.and_eq_true, List.any_eq_true, beq_iff_eq] at hk
  obtain ⟨⟨⟨⟨⟨s, hs, hsc⟩, -⟩, -⟩, -⟩, -⟩ := hk
  exact h s hs hsc

/-- C4: for a catalog id of the form `iptv-country-<code>`, every channel the
catalog handler selects has `country` equal to the uppercased code (the code
segment is compared uppercased, hence case-insensitively). -/
theorem country_catalog_spec (channels : List Channel) (streams : List StreamRec)
    (genresCfg : List String) (code : String) (genreParam searchParam : Option String)
    (c : Channel)
    (h : c ∈ catalogChannels channels streams genresCfg ("iptv-country-" ++ code)
      genreParam searchParam) :
    c.country = jsToUpper code := by
  rw [catalogChannels_eq_filter] at h
  have hk := (List.mem_filter.mp h).2
  have hstart : jsStartsWith ("iptv-country-" ++ code) "iptv-country-" = true := by
    rw [jsStartsWith, String.data_append]
    exact isPrefixOf_append_self _ _
  have hrepl : replaceFirstL "iptv-country-".data ("iptv-country-" ++ code).data = code.data := by
    rw [String.data_append]
    exact replaceFirstL_append _ _ (by decide)
  simp only [catalogKeep, Bool.and_eq_true, hstart, hrepl, Bool.not_true, Bool.false_or,
    beq_iff_eq] at hk
  exact hk.1.1.1.2

/-- C1: `getPoster` resolves the poster by strict priority with no merging:
(1) a (truthy) guide image wins outright, even when logos exist; (2) otherwise,
when candidate logos exist (same channel, tagged `horizontal`, non-SVG format),
the url of a candidate of greatest width is returned; (3) otherwise the
channel's own truthy non-`.svg` `logo`; (4) otherwise the URL templated from a
non-empty channel id; (5) otherwise the fixed placeholder URL. -/
theorem getPoster_priority (ch : Channel) (gd : Option GuideDetails) (logos : List Logo) :
    (∀ img, optTruthy (gd.bind fun d => d.currentShowImage) = some img →
      getPoster ch gd logos = img) ∧
    (optTruthy (gd.bind fun d => d.currentShowImage) = none →
      candidates ch logos ≠ [] →
      ∃ l ∈ candidates ch logos, (∀ x ∈ candidates ch logos, x.width ≤ l.width) ∧
        getPoster ch gd logos = l.url) ∧
    (optTruthy (gd.bind fun d => d.currentShowImage) = none →
      ∀ u, candidates ch logos = [] → channelLogoOk ch = some u →
        getPoster ch gd logos = u) ∧
    (optTruthy (gd.bind fun d => d.currentShowImage) = none →
      candidates ch logos = [] → channelLogoOk ch = none → ch.id ≠ "" →
        getPoster ch gd logos = "https://iptv-org.github.io/logo/" ++ ch.id ++ ".png") ∧
    (optTruthy (gd.bind fun d => d.currentShowImage) = none →
      candidates ch logos = [] → channelLogoOk ch = none → ch.id = "" →
        getPoster ch gd logos = "https://dl.strem.io/addon-background-landscape.jpg") := by
  refine ⟨?_, ?_, ?_, ?_, ?_⟩
  · intro img h
    simp [getPoster, h]
  · intro h hne
    cases hc : candidates ch logos with
    | nil => exact absurd hc hne
    | cons b rest =>
      refine ⟨pickWidest b rest, pickWidest_mem b rest, pickWidest_width b rest, ?_⟩
      simp [getPoster, h, hc]
  · intro h u hc hlog
    simp [getPoster, h, hc, hlog]
  · intro h hc hlog hid
    simp [getPoster, idFallback, h, hc, hlog, hid]
  · intro h hc hlog hid
    simp [getPoster, idFallback, h, hc, hlog, hid]

/-- C10: for a channel with a non-empty id, when the guide image, the candidate
logos and the channel's own usable logo are all absent, `getPoster` returns the
URL templated from the channel id — which is never the fixed placeholder URL,
so the placeholder branch is reachable only for channels with an empty id. -/
theorem getPoster_no_placeholder (ch : Channel) (gd : Option GuideDetails) (logos : List Logo)
    (hid : ch.id ≠ "")
    (h1 : optTruthy (gd.bind fun d => d.currentShowImage) = none)
    (h2 : candidates ch logos = [])
    (h3 : channelLogoOk ch = none) :
    getPoster ch gd logos = "https://iptv-org.github.io/logo/" ++ ch.id ++ ".png" ∧
    getPoster ch gd logos ≠ "https://dl.strem.io/addon-background-landscape.jpg" := by
  have htempl : getPoster ch gd logos =
      "https://iptv-org.github.io/logo/" ++ ch.id ++ ".png" := by
    simp [getPoster, idFallback, h1, h2, h3, hid]
  refine ⟨htempl, ?_⟩
  rw [htempl]
  intro heq
  have hd := congrArg String.data heq
  rw [String.data_append, String.data_append, List.append_assoc] at hd
  have h8 : ("https://iptv-org.github.io/logo/".data ++ (ch.id.data ++ ".png".data))[8]? =
      ("https://dl.strem.io/addon-background-landscape.jpg".data)[8]? := by
    rw [hd]
  rw [List.getElem?_append_left (by decide)] at h8
  revert h8
  decide

/-! ## Witnesses -/

/-- Witness for C1: a concrete guide image wins the poster resolution. -/
theorem getPoster_priority_witness :
    getPoster { id := "c1", name := "Chan", country := "US", categories := none, logo := none }
      (some { nowPlaying := "Now", next := "Next", currentShowImage := some "http://img" })
      [] = "http://img" :=
  (getPoster_priority _ _ _).1 "http://img" (by decide)

/-- Witness for C3: a channel with no stream record is not selected. -/
theorem no_stream_not_in_catalog_witness :
    ({ id := "c1", name := "A", country := "US", categories := none, logo := none } : Channel) ∉
      catalogChannels
        [{ id := "c1", name := "A", country := "US", categories := none, logo := none }]
        [] [] "iptv-all" none none :=
  no_stream_not_in_catalog _ _ _ _ _ _ _ (by simp)

/-- Witness for C4: a selected channel of `iptv-country-us` has country `US`. -/
theorem country_catalog_spec_witness :
    ({ id := "c1", name := "A", country := "US", categories := none, logo := none } : Channel).country
      = jsToUpper "us" :=
  country_catalog_spec
    [{ id := "c1", name := "A", country := "US", categories := none, logo := none }]
    [{ channel := "c1", url := "u" }] [] "us" none none
    { id := "c1", name := "A", country := "US", categories := none, logo := none }
    (by decide)

/-- Witness for C5: a fresh cached value is returned unchanged with no fetch. -/
theorem getData_cache_spec_witness :
    getData { cache := some { channels := [], streams := [], guides := [] }, lastFetch := 0 }
      10 { channels := [], streams := [], guides := [] } =
      ({ channels := [], streams := [], guides := [] },
       { cache := some { channels := [], streams := [], guides := [] }, lastFetch := 0 },
       false) :=
  (getData_cache_spec _ 10 _).1 _ rfl (by decide)

/-- Witness for C7: an unknown stripped id yields the empty placeholder. -/
theorem metaHandler_spec_witness :
    metaHandler "iptv-c1" [] [] [] (fun _ => none) = none :=
  (metaHandler_spec "iptv-c1" [] [] [] (fun _ => none)).1 (by simp)

/-- Witness for C8: no matching stream record yields the empty stream list. -/
theorem streamHandler_spec_witness :
    streamHandler "iptv-c1" [] = [] :=
  (streamHandler_spec "iptv-c1" []).1 (by simp)

/-- Witness for C10: with everything else absent and a non-empty id, the
templated URL is returned and differs from the placeholder. -/
theorem getPoster_no_placeholder_witness :
    getPoster { id := "c1", name := "A", country := "US", categories := none, logo := none }
      none [] = "https://iptv-org.github.io/logo/" ++ "c1" ++ ".png" ∧
    getPoster { id := "c1", name := "A", country := "US", categories := none, logo := none }
      none [] ≠ "https://dl.strem.io/addon-background-landscape.jpg" :=
  getPoster_no_placeholder _ _ _ (by decide) rfl rfl rfl
